import Mathlib

/-!
Shallow embedding of the crawl-and-chat job-tracking core
(`src/main.py`) and vector-store facade (`src/crawler.py`).

External collaborators (the crawl4ai crawl engine, the chromadb vector
store, pydantic URL validation) are modelled as explicit parameters or
simple lookup structures; the repository's own control flow and data
marshaling are translated directly.  Timestamps (`datetime.now()
.isoformat()`) are modelled as abstract `Nat` values supplied by the
caller, since only their placement in records matters to the spec.
-/

namespace CrawlChat

/-- Lifecycle status of a crawl task, the values written to
`crawl_tasks[task_id]["status"]` in `src/main.py`. -/
inductive TaskStatus
  | pending
  | in_progress
  | completed
  | failed
deriving DecidableEq, Repr

/-- One entry of the `crawl_tasks` dict in `src/main.py`: the fields set at
creation (`start_crawl`) plus the optional fields merged in by the
background runner (`crawl_task`). -/
structure TaskRecord where
  url : String
  collection_name : String
  status : TaskStatus
  start_time : Nat
  finish_time : Option Nat := none
  pages_crawled : Option Nat := none
  error : Option String := none
deriving DecidableEq, Repr

/-- Phase of the background coroutine spawned for one task: not yet run,
past its `in_progress` write, or returned.  This is the runner's program
counter, used to state reachability for the status state machine. -/
inductive JobPhase
  | notStarted
  | started
  | done
deriving DecidableEq, Repr

/-- First-match lookup in an association list, the read
`crawl_tasks[task_id]` / membership test `task_id in crawl_tasks` on the
Python dict (which holds at most one entry per key). -/
def lookupEntry {α : Type} : List (String × α) → String → Option α
  | [], _ => none
  | (k, v) :: rest, key => if k = key then some v else lookupEntry rest key

/-- Pointwise update of the entry for `key`, the in-place mutation
`crawl_tasks[task_id].update({...})` / `crawl_tasks[task_id]["status"] = ...`
on the Python dict. -/
def setEntry {α : Type} (l : List (String × α)) (key : String) (f : α → α) :
    List (String × α) :=
  l.map fun p => if p.1 = key then (p.1, f p.2) else p

/-- The process-wide mutable state of `src/main.py`: the `crawl_tasks`
dict plus, for each task, the phase of its scheduled background job. -/
structure AppState where
  crawl_tasks : List (String × TaskRecord)
  jobs : List (String × JobPhase)
deriving DecidableEq, Repr

/-- The empty state the process starts with (`crawl_tasks = {}`, nothing
scheduled). -/
def initState : AppState := ⟨[], []⟩

/-- Request body of `POST /crawl` (`CrawlRequest` in `src/main.py`), with
the pydantic defaults.  `url` is the string form of the parsed `HttpUrl`. -/
structure CrawlRequest where
  url : String
  pattern : String := "*"
  max_depth : Int := 2
  collection_name : String := "web_content"
deriving DecidableEq, Repr

/-- Response body of `POST /crawl` (`CrawlResponse` in `src/main.py`). -/
structure CrawlResponse where
  task_id : String
  message : String
  status : String
deriving DecidableEq, Repr

/-- Response body of `GET /crawl/{task_id}` (`CrawlStatus` in
`src/main.py`). -/
structure CrawlStatus where
  task_id : String
  url : String
  collection_name : String
  status : TaskStatus
  start_time : Nat
  finish_time : Option Nat := none
  pages_crawled : Option Nat := none
  error : Option String := none
deriving DecidableEq, Repr

/-- Outcome of an HTTP endpoint: a success payload, or an
`HTTPException(status_code, detail)`. -/
inductive HttpResult (α : Type)
  | ok (a : α)
  | error (code : Nat) (detail : String)
deriving DecidableEq, Repr

/-- Modelled from the external pydantic library: the `HttpUrl` field
validator used by `CrawlRequest` in `src/main.py` accepts syntactically
well-formed absolute URLs with an `http`/`https` scheme and a nonempty
host, and rejects scheme-less strings such as `"not-a-url"`. -/
def validHttpUrl (s : String) : Bool :=
  let cs := s.data
  let http := "http://".data
  let https := "https://".data
  (decide (cs.take http.length = http) && decide (http.length < cs.length)) ||
  (decide (cs.take https.length = https) && decide (https.length < cs.length))

/-- `start_crawl` in `src/main.py` (`POST /crawl`), together with the
request validation pydantic performs before the handler runs: an invalid
`url` is rejected (HTTP 422, the framework's `InvalidRequest` rendering)
with no state change; otherwise a fresh `task_id` (supplied here as an
argument, standing for `uuid.uuid4()`) is mapped to a `pending` record
with the current timestamp, the background `crawl_task` job is scheduled,
and the id is returned at once. -/
def start_crawl (st : AppState) (req : CrawlRequest) (task_id : String)
    (now : Nat) : AppState × HttpResult CrawlResponse :=
  if validHttpUrl req.url then
    let rec0 : TaskRecord :=
      { url := req.url
        collection_name := req.collection_name
        status := TaskStatus.pending
        start_time := now }
    ({ crawl_tasks := (task_id, rec0) :: st.crawl_tasks
       jobs := (task_id, JobPhase.notStarted) :: st.jobs },
     HttpResult.ok
       { task_id := task_id
         message := "Crawling started for " ++ req.url ++ " with max depth "
           ++ toString req.max_depth
           ++ ". Results will be saved to collection '"
           ++ req.collection_name ++ "'."
         status := "pending" })
  else
    (st, HttpResult.error 422 "value is not a valid URL")

/-- `get_crawl_status` in `src/main.py` (`GET /crawl/{task_id}`): 404 for
an unknown id, otherwise the record snapshot. -/
def get_crawl_status (st : AppState) (task_id : String) :
    HttpResult CrawlStatus :=
  match lookupEntry st.crawl_tasks task_id with
  | none =>
      HttpResult.error 404
        ("Crawl task with ID " ++ task_id ++ " not found")
  | some r =>
      HttpResult.ok
        { task_id := task_id
          url := r.url
          collection_name := r.collection_name
          status := r.status
          start_time := r.start_time
          finish_time := r.finish_time
          pages_crawled := r.pages_crawled
          error := r.error }

/-- Digit-run value, the `int(...)` applied to the regex group in
`crawl_task`. -/
def digitsVal (ds : List Char) : Nat :=
  ds.foldl (fun a c => a * 10 + (c.toNat - 48)) 0

/-- Anchored match of the regex `Successfully crawled (\d+) pages` at the
start of `cs`: the literal prefix, then a maximal nonempty digit run
(greedy `\d+`; shorter runs cannot be followed by the space of
`" pages"`), then the literal `" pages"`.  Returns the captured count. -/
def matchCountAt (cs : List Char) : Option Nat :=
  let pre := "Successfully crawled ".data
  let post := " pages".data
  if cs.take pre.length = pre then
    let rest := cs.drop pre.length
    let ds := rest.takeWhile Char.isDigit
    if ds = [] then none
    else if (rest.drop ds.length).take post.length = post then
      some (digitsVal ds)
    else none
  else none

/-- Leftmost-match search, the semantics of
`re.search(r"Successfully crawled (\d+) pages", result)`: try the anchored
match at each successive start position. -/
def searchCount : List Char → Option Nat
  | [] => none
  | c :: cs =>
    match matchCountAt (c :: cs) with
    | some n => some n
    | none => searchCount cs

/-- Page-count extraction in `crawl_task` (`src/main.py` lines 63-66):
`int(pages_match.group(1)) if pages_match else None`. -/
def extractPages (s : String) : Option Nat :=
  searchCount s.data

/-- Declarative form of "the summary contains the pattern
`Successfully crawled N pages`": some suffix of the string carries an
anchored match. -/
def hasCrawlCount (s : String) : Bool :=
  s.data.tails.any fun t => (matchCountAt t).isSome

/-- First half of the background `crawl_task` coroutine in `src/main.py`:
the `crawl_tasks[task_id]["status"] = "in_progress"` write, after which
the coroutine suspends awaiting the crawl collaborator. -/
def runner_start (st : AppState) (task_id : String) : AppState :=
  { crawl_tasks :=
      setEntry st.crawl_tasks task_id fun r =>
        { r with status := TaskStatus.in_progress }
    jobs := setEntry st.jobs task_id fun _ => JobPhase.started }

/-- Second half of the background `crawl_task` coroutine: the collaborator
call `await crawl_website(...)` either returned a summary string
(`Except.ok`) or raised (`Except.error`, carrying `str(e)`).  On success
the record is merged with status `completed`, the finish timestamp and the
extracted page count; on failure with status `failed`, the finish
timestamp and the error string.  The exception is consumed here and never
propagates. -/
def runner_finish (st : AppState) (task_id : String)
    (outcome : Except String String) (fin : Nat) : AppState :=
  { crawl_tasks :=
      setEntry st.crawl_tasks task_id fun r =>
        match outcome with
        | Except.ok summary =>
            { r with status := TaskStatus.completed
                     finish_time := some fin
                     pages_crawled := extractPages summary }
        | Except.error e =>
            { r with status := TaskStatus.failed
                     finish_time := some fin
                     error := some e }
    jobs := setEntry st.jobs task_id fun _ => JobPhase.done }

/-- The whole `crawl_task` coroutine run to completion, as a function of
the collaborator's outcome and the finish timestamp. -/
def crawl_task_run (st : AppState) (task_id : String)
    (outcome : Except String String) (fin : Nat) : AppState :=
  runner_finish (runner_start st task_id) task_id outcome fin

/-! ## Vector-store facade (`src/crawler.py`) -/

/-- One nearest-neighbour hit as chromadb reports it to `query_chromadb`:
a document body, its metadata (opaque pass-through here) and a distance.
Distances are modelled as rationals; the code applies only `1 - dist`. -/
structure Hit where
  doc : String
  meta : String
  dist : Rat

/-- Modelled view of the external chromadb store: each existing collection
name is mapped to its query behaviour, `(query text, n_results) ↦ ranked
hits`.  `get_collection` on an absent name raises in the client; here it
is a failed lookup. -/
abbrev Store := List (String × (String → Nat → List Hit))

/-- One element of the `response_data` list built in `query_chromadb`. -/
structure ResultEntry where
  rank : Nat
  relevance_score : Rat
  metadata : String
  content_preview : String
  full_content : String

/-- The JSON object `query_chromadb` dumps and `query_collection` loads
back; each field is optional because the three shapes produced (results,
no-results, error) carry different key sets, and `query_collection`
branches on the presence of the `"error"` key. -/
structure QueryData where
  collection : Option String := none
  query : Option String := none
  num_results : Option Nat := none
  results : Option (List ResultEntry) := none
  message : Option String := none
  error : Option String := none

/-- The `result_entry` dict built for hit number `i` (0-based) in
`query_chromadb`: rank `i + 1`, similarity `1 - dist`, and a preview that
is `doc[:300] + "..."` exactly when `len(doc) > 300`. -/
def mkResultEntry (i : Nat) (h : Hit) : ResultEntry :=
  { rank := i + 1
    relevance_score := 1 - h.dist
    metadata := h.meta
    content_preview :=
      if 300 < h.doc.length then h.doc.take 300 ++ "..." else h.doc
    full_content := h.doc }

/-- The `response_data` loop of `query_chromadb`: enumerate the zipped
documents/metadata/distances. -/
def buildEntries (hits : List Hit) : List ResultEntry :=
  hits.enum.map fun p => mkResultEntry p.1 p.2

/-- `query_chromadb` in `src/crawler.py`.  A missing collection makes the
client's `get_collection` raise, which the function catches and converts
into the error JSON; an existing collection's hits are reshaped, with the
empty-hit case reported as a non-error object with `num_results = 0`. -/
def query_chromadb (store : Store) (collection_name query : String)
    (n_results : Nat) : QueryData :=
  match lookupEntry store collection_name with
  | none =>
      { error := some ("Collection " ++ collection_name ++ " does not exist.")
        message := some ("Failed to query collection '" ++ collection_name
          ++ "'. Make sure the collection exists and contains documents.") }
  | some f =>
      if (buildEntries (f query n_results)).isEmpty then
        { collection := some collection_name
          query := some query
          num_results := some 0
          message := some "No results found for this query in the collection." }
      else
        { collection := some collection_name
          query := some query
          num_results := some (buildEntries (f query n_results)).length
          results := some (buildEntries (f query n_results)) }

/-- Request body of `POST /query` (`QueryRequest` in `src/main.py`). -/
structure QueryRequest where
  collection_name : String
  query : String
  n_results : Nat := 5

/-- `query_collection` in `src/main.py` (`POST /query`): parse the JSON
from `query_chromadb` and turn a present `"error"` key into an
`HTTPException(400, detail=results_data["message"])`; otherwise return the
data as the success payload. -/
def query_collection (store : Store) (req : QueryRequest) :
    HttpResult QueryData :=
  let results_data :=
    query_chromadb store req.collection_name req.query req.n_results
  match results_data.error with
  | some _ => HttpResult.error 400 (results_data.message.getD "")
  | none => HttpResult.ok results_data

/-- Outcome of the external `chroma_client.list_collections()` call:
either the collection names, or a raised exception (carried as `str(e)`). -/
inductive ListOutcome
  | ok (names : List String)
  | raise (e : String)
deriving DecidableEq, Repr

/-- The JSON object produced by `list_collections` in `src/crawler.py`:
either a `collections` list of `{name}` entries, or an `error`/`message`
pair when the store call raised. -/
structure CollectionsData where
  collections : Option (List String) := none
  error : Option String := none
  message : Option String := none
deriving DecidableEq, Repr

/-- `list_collections` in `src/crawler.py`: every store failure is caught
and returned as the error JSON object — the function itself never
raises. -/
def list_collections (o : ListOutcome) : CollectionsData :=
  match o with
  | ListOutcome.ok names => { collections := some names }
  | ListOutcome.raise e =>
      { error := some e, message := some "Failed to list collections." }

/-- `get_collections` in `src/main.py` (`GET /collections`): the handler
parses `list_collections`' JSON and returns it as the response body.  Its
`except` branch (HTTP 500) can only fire if `list_collections` raises or
its output fails to parse; neither happens, since `list_collections`
converts store failures into data and `json.loads` accepts its own
`json.dumps` output — so the handler always answers with a success
response. -/
def get_collections (o : ListOutcome) : HttpResult CollectionsData :=
  HttpResult.ok (list_collections o)

/-! ## Status state machine -/

/-- Position of a status along the one-directional lifecycle
`pending → in_progress → {completed | failed}`. -/
def statusRank : TaskStatus → Nat
  | TaskStatus.pending => 0
  | TaskStatus.in_progress => 1
  | TaskStatus.completed => 2
  | TaskStatus.failed => 2

/-- Whether a status is terminal. -/
def terminalStatus : TaskStatus → Bool
  | TaskStatus.completed => true
  | TaskStatus.failed => true
  | TaskStatus.pending => false
  | TaskStatus.in_progress => false

/-- The status a record shows while its background job is in the given
phase: `pending` before the runner's first write, `in_progress` after it,
terminal once the runner returned. -/
def phaseStatusOk : JobPhase → TaskStatus → Prop
  | JobPhase.notStarted, TaskStatus.pending => True
  | JobPhase.started, TaskStatus.in_progress => True
  | JobPhase.done, TaskStatus.completed => True
  | JobPhase.done, TaskStatus.failed => True
  | _, _ => False

/-- System invariant: every task record's status agrees with the phase of
its background job. -/
def Inv (st : AppState) : Prop :=
  ∀ tid r, lookupEntry st.crawl_tasks tid = some r →
    ∃ ph, lookupEntry st.jobs tid = some ph ∧ phaseStatusOk ph r.status

/-- One atomic write to the shared `crawl_tasks` state, as the code
performs them: a successful `start_crawl` insert under a fresh
`uuid.uuid4()` id, the runner's `in_progress` write (only ever executed
once per scheduled job, by a job that has not run yet), or the runner's
terminal write (only ever executed by a job past its `in_progress`
write). -/
inductive Step : AppState → AppState → Prop
  | submit (st st' : AppState) (req : CrawlRequest) (tid : String) (now : Nat)
      (resp : CrawlResponse)
      (hfresh : lookupEntry st.crawl_tasks tid = none)
      (h : start_crawl st req tid now = (st', HttpResult.ok resp)) :
      Step st st'
  | runStart (st : AppState) (tid : String)
      (h : lookupEntry st.jobs tid = some JobPhase.notStarted) :
      Step st (runner_start st tid)
  | runFinish (st : AppState) (tid : String) (outcome : Except String String)
      (fin : Nat)
      (h : lookupEntry st.jobs tid = some JobPhase.started) :
      Step st (runner_finish st tid outcome fin)

/-- States the process can be in: anything produced from the empty
startup state by the writes above. -/
inductive Reachable : AppState → Prop
  | init : Reachable initState
  | step (st st' : AppState) : Reachable st → Step st st' → Reachable st'

/-- Zero or more further writes. -/
inductive Steps (st : AppState) : AppState → Prop
  | refl : Steps st st
  | tail (st' st'' : AppState) : Steps st st' → Step st' st'' →
      Steps st st''

/-! ## Demonstration inputs used by the witness theorems -/

/-- A valid crawl request, pydantic defaults filled in. -/
def demoReq : CrawlRequest := { url := "http://example.com" }

/-- The record `start_crawl` creates for `demoReq` at time 0. -/
def demoRec1 : TaskRecord :=
  { url := "http://example.com"
    collection_name := "web_content"
    status := TaskStatus.pending
    start_time := 0 }

/-- The state after submitting `demoReq` as task `"t1"` to the empty
state. -/
def stDemo1 : AppState :=
  ⟨[("t1", demoRec1)], [("t1", JobPhase.notStarted)]⟩

/-- The response `start_crawl` returns for `demoReq` as task `"t1"`. -/
def demoResp : CrawlResponse :=
  { task_id := "t1"
    message := "Crawling started for http://example.com with max depth 2. Results will be saved to collection 'web_content'."
    status := "pending" }

/-- `demoRec1` after the runner's `in_progress` write. -/
def demoRec2 : TaskRecord :=
  { url := "http://example.com"
    collection_name := "web_content"
    status := TaskStatus.in_progress
    start_time := 0 }

/-- The state after the runner of task `"t1"` has performed its
`in_progress` write in `stDemo1`. -/
def stDemo2 : AppState :=
  ⟨[("t1", demoRec2)], [("t1", JobPhase.started)]⟩

/-- A store with one collection `"c"` that answers every query with no
hits. -/
def demoStoreEmptyHits : Store := [("c", fun _ _ => [])]

/-- A store with one collection `"c"` answering every query with a single
hit at distance 0.2. -/
def demoStoreOneHit : Store :=
  [("c", fun _ _ => [{ doc := "some document", meta := "m", dist := 0.2 }])]

/-- A 301-character document body, just over the preview limit. -/
def demoLongDoc : String := String.mk (List.replicate 301 'a')

/-- A store whose collection `"c"` returns one hit with the long body. -/
def demoStoreLongDoc : Store :=
  [("c", fun _ _ => [{ doc := demoLongDoc, meta := "m", dist := 0 }])]

/-! ## Registry lemmas -/

theorem lookupEntry_cons {α : Type} (k : String) (v : α)
    (rest : List (String × α)) (key : String) :
    lookupEntry ((k, v) :: rest) key =
      if k = key then some v else lookupEntry rest key := rfl

theorem setEntry_cons {α : Type} (k : String) (v : α)
    (rest : List (String × α)) (key : String) (f : α → α) :
    setEntry ((k, v) :: rest) key f =
      (if k = key then (k, f v) else (k, v)) :: setEntry rest key f := rfl

theorem lookupEntry_setEntry_self {α : Type} (l : List (String × α))
    (key : String) (f : α → α) :
    lookupEntry (setEntry l key f) key = (lookupEntry l key).map f := by
  induction l with
  | nil => rfl
  | cons p rest ih =>
    obtain ⟨k, v⟩ := p
    by_cases hk : k = key
    · rw [setEntry_cons, if_pos hk, lookupEntry_cons, lookupEntry_cons,
        if_pos hk, if_pos hk]
      rfl
    · rw [setEntry_cons, if_neg hk, lookupEntry_cons, lookupEntry_cons,
        if_neg hk, if_neg hk]
      exact ih

theorem lookupEntry_setEntry_some {α : Type} (l : List (String × α))
    (key : String) (f : α → α) (v : α) (h : lookupEntry l key = some v) :
    lookupEntry (setEntry l key f) key = some (f v) := by
  rw [lookupEntry_setEntry_self, h]
  rfl

theorem lookupEntry_setEntry_other {α : Type} (l : List (String × α))
    (key k : String) (f : α → α) (h : k ≠ key) :
    lookupEntry (setEntry l key f) k = lookupEntry l k := by
  induction l with
  | nil => rfl
  | cons p rest ih =>
    obtain ⟨k0, v⟩ := p
    by_cases hk : k0 = key
    · have hk0 : ¬(k0 = k) := by
        rw [hk]
        exact fun hc => h hc.symm
      rw [setEntry_cons, if_pos hk, lookupEntry_cons, lookupEntry_cons,
        if_neg hk0, if_neg hk0]
      exact ih
    · by_cases hq : k0 = k
      · rw [setEntry_cons, if_neg hk, lookupEntry_cons, lookupEntry_cons,
          if_pos hq, if_pos hq]
      · rw [setEntry_cons, if_neg hk, lookupEntry_cons, lookupEntry_cons,
          if_neg hq, if_neg hq]
        exact ih

theorem phaseStatusOk_notStarted (s : TaskStatus)
    (h : phaseStatusOk JobPhase.notStarted s) : s = TaskStatus.pending := by
  cases s <;> simp_all [phaseStatusOk]

theorem phaseStatusOk_started (s : TaskStatus)
    (h : phaseStatusOk JobPhase.started s) : s = TaskStatus.in_progress := by
  cases s <;> simp_all [phaseStatusOk]

theorem phaseStatusOk_done (s : TaskStatus)
    (h : phaseStatusOk JobPhase.done s) : terminalStatus s = true := by
  cases s <;> simp_all [phaseStatusOk, terminalStatus]

/-- Inversion of a successful submission: the URL was valid and the new
state is the old one with the fresh `pending` record and its scheduled
job prepended. -/
theorem start_crawl_ok_inv (st st' : AppState) (req : CrawlRequest)
    (tid : String) (now : Nat) (resp : CrawlResponse)
    (h : start_crawl st req tid now = (st', HttpResult.ok resp)) :
    validHttpUrl req.url = true ∧
    st' = { crawl_tasks :=
              (tid, { url := req.url
                      collection_name := req.collection_name
                      status := TaskStatus.pending
                      start_time := now }) :: st.crawl_tasks
            jobs := (tid, JobPhase.notStarted) :: st.jobs } ∧
    resp.task_id = tid := by
  unfold start_crawl at h
  split at h
  case isTrue hv =>
    injection h with h1 h2
    injection h2 with h3
    exact ⟨hv, h1.symm, by rw [← h3]⟩
  case isFalse hv =>
    injection h with h1 h2
    simp at h2

theorem runner_start_tasks (st : AppState) (tid : String) :
    (runner_start st tid).crawl_tasks =
      setEntry st.crawl_tasks tid
        (fun r => { r with status := TaskStatus.in_progress }) := rfl

theorem runner_start_jobs (st : AppState) (tid : String) :
    (runner_start st tid).jobs =
      setEntry st.jobs tid (fun _ => JobPhase.started) := rfl

theorem runner_finish_tasks (st : AppState) (tid : String)
    (outcome : Except String String) (fin : Nat) :
    (runner_finish st tid outcome fin).crawl_tasks =
      setEntry st.crawl_tasks tid
        (fun r =>
          match outcome with
          | Except.ok summary =>
              { r with status := TaskStatus.completed
                       finish_time := some fin
                       pages_crawled := extractPages summary }
          | Except.error e =>
              { r with status := TaskStatus.failed
                       finish_time := some fin
                       error := some e }) := rfl

theorem runner_finish_jobs (st : AppState) (tid : String)
    (outcome : Except String String) (fin : Nat) :
    (runner_finish st tid outcome fin).jobs =
      setEntry st.jobs tid (fun _ => JobPhase.done) := rfl

/-! ## Invariant preservation and monotonicity of the status machine -/

theorem inv_init : Inv initState := by
  intro tid r hr
  exact Option.noConfusion hr

theorem inv_step (st st' : AppState) (hInv : Inv st) (hs : Step st st') :
    Inv st' := by
  cases hs with
  | submit _ req tid now resp hfresh h =>
    obtain ⟨hv, hst', hresp⟩ := start_crawl_ok_inv _ _ _ _ _ _ h
    subst hst'
    intro tid' r' hr'
    rw [lookupEntry_cons] at hr'
    by_cases htid : tid = tid'
    · rw [if_pos htid] at hr'
      injection hr' with he
      refine ⟨JobPhase.notStarted, ?_, ?_⟩
      · rw [lookupEntry_cons, if_pos htid]
      · rw [← he]
        trivial
    · rw [if_neg htid] at hr'
      obtain ⟨ph, hph, hok⟩ := hInv tid' r' hr'
      refine ⟨ph, ?_, hok⟩
      rw [lookupEntry_cons, if_neg htid]
      exact hph
  | runStart tid h =>
    intro tid' r' hr'
    rw [runner_start_tasks] at hr'
    by_cases htid : tid' = tid
    · subst htid
      rw [lookupEntry_setEntry_self] at hr'
      cases hx : lookupEntry st.crawl_tasks tid' with
      | none => rw [hx] at hr'; exact Option.noConfusion hr'
      | some r0 =>
        rw [hx] at hr'
        injection hr' with he
        refine ⟨JobPhase.started, ?_, ?_⟩
        · rw [runner_start_jobs, lookupEntry_setEntry_self, h]
          rfl
        · rw [← he]
          trivial
    · rw [lookupEntry_setEntry_other _ _ _ _ htid] at hr'
      obtain ⟨ph, hph, hok⟩ := hInv tid' r' hr'
      refine ⟨ph, ?_, hok⟩
      rw [runner_start_jobs, lookupEntry_setEntry_other _ _ _ _ htid]
      exact hph
  | runFinish tid outcome fin h =>
    intro tid' r' hr'
    rw [runner_finish_tasks] at hr'
    by_cases htid : tid' = tid
    · subst htid
      rw [lookupEntry_setEntry_self] at hr'
      cases hx : lookupEntry st.crawl_tasks tid' with
      | none => rw [hx] at hr'; exact Option.noConfusion hr'
      | some r0 =>
        rw [hx] at hr'
        injection hr' with he
        refine ⟨JobPhase.done, ?_, ?_⟩
        · rw [runner_finish_jobs, lookupEntry_setEntry_self, h]
          rfl
        · rw [← he]
          cases outcome <;> trivial
    · rw [lookupEntry_setEntry_other _ _ _ _ htid] at hr'
      obtain ⟨ph, hph, hok⟩ := hInv tid' r' hr'
      refine ⟨ph, ?_, hok⟩
      rw [runner_finish_jobs, lookupEntry_setEntry_other _ _ _ _ htid]
      exact hph

theorem reachable_inv (st : AppState) (h : Reachable st) : Inv st := by
  induction h with
  | init => exact inv_init
  | step st st' _ hs ih => exact inv_step st st' ih hs

theorem step_keeps_record (st st' : AppState) (hs : Step st st')
    (tid : String) (r : TaskRecord)
    (hr : lookupEntry st.crawl_tasks tid = some r) :
    ∃ r', lookupEntry st'.crawl_tasks tid = some r' := by
  cases hs with
  | submit _ req tid0 now resp hfresh h =>
    obtain ⟨hv, hst', hresp⟩ := start_crawl_ok_inv _ _ _ _ _ _ h
    subst hst'
    by_cases htid : tid0 = tid
    · subst htid
      rw [hfresh] at hr
      exact Option.noConfusion hr
    · refine ⟨r, ?_⟩
      rw [lookupEntry_cons, if_neg htid]
      exact hr
  | runStart tid0 h =>
    by_cases htid : tid = tid0
    · subst htid
      rw [runner_start_tasks]
      exact ⟨_, lookupEntry_setEntry_some _ _ _ _ hr⟩
    · refine ⟨r, ?_⟩
      rw [runner_start_tasks, lookupEntry_setEntry_other _ _ _ _ htid]
      exact hr
  | runFinish tid0 outcome fin h =>
    by_cases htid : tid = tid0
    · subst htid
      rw [runner_finish_tasks]
      exact ⟨_, lookupEntry_setEntry_some _ _ _ _ hr⟩
    · refine ⟨r, ?_⟩
      rw [runner_finish_tasks, lookupEntry_setEntry_other _ _ _ _ htid]
      exact hr

theorem step_mono (st st' : AppState) (hInv : Inv st) (hs : Step st st')
    (tid : String) (r r' : TaskRecord)
    (hr : lookupEntry st.crawl_tasks tid = some r)
    (hr' : lookupEntry st'.crawl_tasks tid = some r') :
    statusRank r.status ≤ statusRank r'.status ∧
    (terminalStatus r.status = true → r'.status = r.status) := by
  cases hs with
  | submit _ req tid0 now resp hfresh h =>
    obtain ⟨hv, hst', hresp⟩ := start_crawl_ok_inv _ _ _ _ _ _ h
    subst hst'
    rw [lookupEntry_cons] at hr'
    by_cases htid : tid0 = tid
    · subst htid
      rw [hfresh] at hr
      exact Option.noConfusion hr
    · rw [if_neg htid, hr] at hr'
      injection hr' with he
      subst he
      exact ⟨le_refl _, fun _ => rfl⟩
  | runStart tid0 h =>
    by_cases htid : tid = tid0
    · subst htid
      rw [runner_start_tasks, lookupEntry_setEntry_self, hr] at hr'
      injection hr' with he
      obtain ⟨ph, hph, hok⟩ := hInv tid r hr
      rw [h] at hph
      injection hph with hpe
      subst hpe
      have hp : r.status = TaskStatus.pending := phaseStatusOk_notStarted _ hok
      have hs' : r'.status = TaskStatus.in_progress := by rw [← he]
      rw [hp, hs']
      exact ⟨by decide, by intro hterm; exact absurd hterm (by decide)⟩
    · rw [runner_start_tasks, lookupEntry_setEntry_other _ _ _ _ htid, hr]
        at hr'
      injection hr' with he
      subst he
      exact ⟨le_refl _, fun _ => rfl⟩
  | runFinish tid0 outcome fin h =>
    by_cases htid : tid = tid0
    · subst htid
      rw [runner_finish_tasks, lookupEntry_setEntry_self, hr] at hr'
      injection hr' with he
      obtain ⟨ph, hph, hok⟩ := hInv tid r hr
      rw [h] at hph
      injection hph with hpe
      subst hpe
      have hp : r.status = TaskStatus.in_progress := phaseStatusOk_started _ hok
      cases outcome with
      | ok summary =>
        have hs' : r'.status = TaskStatus.completed := by rw [← he]
        rw [hp, hs']
        exact ⟨by decide, by intro hterm; exact absurd hterm (by decide)⟩
      | error e =>
        have hs' : r'.status = TaskStatus.failed := by rw [← he]
        rw [hp, hs']
        exact ⟨by decide, by intro hterm; exact absurd hterm (by decide)⟩
    · rw [runner_finish_tasks, lookupEntry_setEntry_other _ _ _ _ htid, hr]
        at hr'
      injection hr' with he
      subst he
      exact ⟨le_refl _, fun _ => rfl⟩

theorem steps_reachable (st st' : AppState) (h : Reachable st)
    (hs : Steps st st') : Reachable st' := by
  induction hs with
  | refl => exact h
  | tail st' st'' _ hstep ih => exact Reachable.step st' st'' ih hstep

theorem steps_keeps_record (st st' : AppState) (hs : Steps st st')
    (tid : String) (r : TaskRecord)
    (hr : lookupEntry st.crawl_tasks tid = some r) :
    ∃ r', lookupEntry st'.crawl_tasks tid = some r' := by
  induction hs with
  | refl => exact ⟨r, hr⟩
  | tail stB stC _ hstep ih =>
    obtain ⟨rm, hrm⟩ := ih
    exact step_keeps_record stB stC hstep tid rm hrm

/-! ## Lemmas about the page-count extraction -/

theorem searchCount_cons (c : Char) (cs : List Char) :
    searchCount (c :: cs) =
      match matchCountAt (c :: cs) with
      | some n => some n
      | none => searchCount cs := rfl

/-- A count found by the leftmost-match search is the value of an actual
occurrence of the pattern (some suffix of the input matches). -/
theorem searchCount_some_drop (cs : List Char) (n : Nat)
    (h : searchCount cs = some n) :
    ∃ i, matchCountAt (cs.drop i) = some n := by
  induction cs with
  | nil => exact Option.noConfusion h
  | cons c rest ih =>
    cases hm : matchCountAt (c :: rest) with
    | some m =>
      simp only [searchCount_cons, hm] at h
      injection h with he
      refine ⟨0, ?_⟩
      show matchCountAt (c :: rest) = some n
      rw [hm, he]
    | none =>
      simp only [searchCount_cons, hm] at h
      obtain ⟨i, hi⟩ := ih h
      exact ⟨i + 1, hi⟩

/-- The search succeeds exactly when some start position carries an
anchored match. -/
theorem searchCount_isSome (cs : List Char) :
    (searchCount cs).isSome =
      cs.tails.any fun t => (matchCountAt t).isSome := by
  induction cs with
  | nil => decide
  | cons c rest ih =>
    rw [List.tails_cons, List.any_cons]
    cases hm : matchCountAt (c :: rest) with
    | some m => simp only [searchCount_cons, hm, Option.isSome_some,
        Bool.true_or]
    | none =>
      simp only [searchCount_cons, hm, Option.isSome_none, Bool.false_or]
      exact ih

theorem extractPages_isSome (s : String) :
    (extractPages s).isSome = hasCrawlCount s :=
  searchCount_isSome s.data

/-- When the summary does not contain the pattern anywhere, the extraction
yields `none`. -/
theorem extractPages_eq_none (s : String) (h : hasCrawlCount s = false) :
    extractPages s = none := by
  have hs := extractPages_isSome s
  rw [h] at hs
  cases hx : extractPages s with
  | none => rfl
  | some m =>
    rw [hx] at hs
    exact Bool.noConfusion hs

/-! ## Lemmas about the query facade -/

theorem query_chromadb_no_collection (store : Store) (name q : String)
    (n : Nat) (h : lookupEntry store name = none) :
    query_chromadb store name q n =
      { error := some ("Collection " ++ name ++ " does not exist.")
        message := some ("Failed to query collection '" ++ name
          ++ "'. Make sure the collection exists and contains documents.") } := by
  unfold query_chromadb
  rw [h]

theorem query_chromadb_zero_hits (store : Store) (name q : String) (n : Nat)
    (f : String → Nat → List Hit) (hf : lookupEntry store name = some f)
    (hq : f q n = []) :
    query_chromadb store name q n =
      { collection := some name
        query := some q
        num_results := some 0
        message := some "No results found for this query in the collection." } := by
  unfold query_chromadb
  rw [hf]
  show (if (buildEntries (f q n)).isEmpty then _ else _) = _
  rw [hq]
  rfl

theorem query_chromadb_with_hits (store : Store) (name q : String) (n : Nat)
    (f : String → Nat → List Hit) (hf : lookupEntry store name = some f)
    (hne : (buildEntries (f q n)).isEmpty = false) :
    query_chromadb store name q n =
      { collection := some name
        query := some q
        num_results := some (buildEntries (f q n)).length
        results := some (buildEntries (f q n)) } := by
  unfold query_chromadb
  rw [hf]
  show (if (buildEntries (f q n)).isEmpty then _ else _) = _
  rw [hne]
  rfl

theorem buildEntries_get (hits : List Hit) (i : Nat) (h : Hit)
    (hi : hits.get? i = some h) :
    (buildEntries hits).get? i = some (mkResultEntry i h) := by
  unfold buildEntries
  rw [List.get?_map, List.get?_enum, hi]
  rfl

theorem buildEntries_isEmpty_false (hits : List Hit) (i : Nat) (h : Hit)
    (hi : hits.get? i = some h) :
    (buildEntries hits).isEmpty = false := by
  cases hits with
  | nil =>
    rw [List.get?_eq_none.mpr (Nat.zero_le i)] at hi
    exact Option.noConfusion hi
  | cons x rest => rfl

/-- The result list an existing collection's hits produce, entry by
entry. -/
theorem query_results_entry (store : Store) (name q : String) (n i : Nat)
    (f : String → Nat → List Hit) (h : Hit)
    (hf : lookupEntry store name = some f) (hi : (f q n).get? i = some h) :
    ∃ l, (query_chromadb store name q n).results = some l ∧
      l.get? i = some (mkResultEntry i h) := by
  refine ⟨buildEntries (f q n), ?_, buildEntries_get _ _ _ hi⟩
  rw [query_chromadb_with_hits store name q n f hf
    (buildEntries_isEmpty_false _ i h hi)]

/-! ## Claim theorems -/

/-- Claim C1: a successful crawl submission has inserted, before
returning, a record for the returned task id with status `pending` and the
start timestamp, so the id is immediately retrievable via
`get_crawl_status` (no 404) and its status at that moment is `pending`
(in particular `pending` or `in_progress`). -/
theorem submit_immediately_retrievable (st st' : AppState)
    (req : CrawlRequest) (task_id : String) (now : Nat)
    (resp : CrawlResponse)
    (h : start_crawl st req task_id now = (st', HttpResult.ok resp)) :
    resp.task_id = task_id ∧
    lookupEntry st'.crawl_tasks task_id =
      some { url := req.url
             collection_name := req.collection_name
             status := TaskStatus.pending
             start_time := now } ∧
    ∃ s, get_crawl_status st' task_id = HttpResult.ok s ∧
      (s.status = TaskStatus.pending ∨ s.status = TaskStatus.in_progress) ∧
      s.status = TaskStatus.pending ∧ s.start_time = now := by
  obtain ⟨hv, hst', hresp⟩ := start_crawl_ok_inv _ _ _ _ _ _ h
  subst hst'
  have hl : lookupEntry
      ((task_id, { url := req.url
                   collection_name := req.collection_name
                   status := TaskStatus.pending
                   start_time := now }) :: st.crawl_tasks) task_id =
      some { url := req.url
             collection_name := req.collection_name
             status := TaskStatus.pending
             start_time := now } := by
    rw [lookupEntry_cons, if_pos rfl]
  refine ⟨hresp, hl, ?_⟩
  refine ⟨{ task_id := task_id
            url := req.url
            collection_name := req.collection_name
            status := TaskStatus.pending
            start_time := now }, ?_, Or.inl rfl, rfl, rfl⟩
  unfold get_crawl_status
  rw [hl]

/-- Witness for C1 at a concrete submission to the empty state. -/
theorem submit_immediately_retrievable_witness :
    demoResp.task_id = "t1" ∧
    lookupEntry stDemo1.crawl_tasks "t1" = some demoRec1 ∧
    ∃ s, get_crawl_status stDemo1 "t1" = HttpResult.ok s ∧
      (s.status = TaskStatus.pending ∨ s.status = TaskStatus.in_progress) ∧
      s.status = TaskStatus.pending ∧ s.start_time = 0 :=
  submit_immediately_retrievable initState stDemo1 demoReq "t1" 0 demoResp
    (by decide)

/-- Claim C2: under the writes the code performs (the orchestrator's
insert and the runner's transitions), a record's status only ever moves
forward along `pending → in_progress → {completed | failed}`, and once it
is `completed` or `failed` no later operation changes it. -/
theorem task_status_monotonic (st st' : AppState) (h0 : Reachable st)
    (hs : Steps st st') (tid : String) (r r' : TaskRecord)
    (hr : lookupEntry st.crawl_tasks tid = some r)
    (hr' : lookupEntry st'.crawl_tasks tid = some r') :
    statusRank r.status ≤ statusRank r'.status ∧
    (terminalStatus r.status = true → r'.status = r.status) := by
  induction hs generalizing r' with
  | refl =>
    rw [hr] at hr'
    injection hr' with he
    subst he
    exact ⟨le_refl _, fun _ => rfl⟩
  | tail stB stC hsteps hstep ih =>
    obtain ⟨rm, hrm⟩ := steps_keeps_record st stB hsteps tid r hr
    have hInvB : Inv stB := reachable_inv stB (steps_reachable st stB h0 hsteps)
    have h1 := ih rm hrm
    have h2 := step_mono stB stC hInvB hstep tid rm r' hrm hr'
    refine ⟨le_trans h1.1 h2.1, ?_⟩
    intro hterm
    have e1 := h1.2 hterm
    have hterm2 : terminalStatus rm.status = true := by
      rw [e1]
      exact hterm
    have e2 := h2.2 hterm2
    rw [e2, e1]

/-- Witness for C2 along the concrete trace submit, then the runner's
`in_progress` write. -/
theorem task_status_monotonic_witness :
    statusRank demoRec1.status ≤ statusRank demoRec2.status ∧
    (terminalStatus demoRec1.status = true →
      demoRec2.status = demoRec1.status) := by
  have hreach : Reachable stDemo1 :=
    Reachable.step initState stDemo1 Reachable.init
      (Step.submit initState stDemo1 demoReq "t1" 0 demoResp (by decide)
        (by decide))
  have hstart : Step stDemo1 (runner_start stDemo1 "t1") :=
    Step.runStart stDemo1 "t1" (by decide)
  have he : runner_start stDemo1 "t1" = stDemo2 := by decide
  rw [he] at hstart
  have hsteps : Steps stDemo1 stDemo2 :=
    Steps.tail stDemo1 stDemo2 Steps.refl hstart
  exact task_status_monotonic stDemo1 stDemo2 hreach hsteps "t1" demoRec1
    demoRec2 (by decide) (by decide)

/-- Claim C3: on a successful collaborator run, the runner completes the
task and records as page count exactly what the leftmost
`Successfully crawled (N) pages` match of the summary captures: the
recorded count is the value of an actual occurrence of the pattern, it is
`42` for the spec's example summary, and when no occurrence exists the
count is recorded as `none` while the task still ends `completed`, not
`failed`. -/
theorem runner_records_page_count (st : AppState) (tid summary : String)
    (fin : Nat) (r : TaskRecord)
    (hr : lookupEntry st.crawl_tasks tid = some r) :
    ∃ r', lookupEntry
        (crawl_task_run st tid (Except.ok summary) fin).crawl_tasks tid =
        some r' ∧
      r'.status = TaskStatus.completed ∧
      r'.pages_crawled = extractPages summary ∧
      (∀ n, extractPages summary = some n →
        ∃ i, matchCountAt (summary.data.drop i) = some n) ∧
      (hasCrawlCount summary = false → r'.pages_crawled = none) ∧
      extractPages
          "Successfully crawled 42 pages and saved to ChromaDB collection 'x'"
        = some 42 := by
  have h1 : lookupEntry (runner_start st tid).crawl_tasks tid =
      some { r with status := TaskStatus.in_progress } := by
    rw [runner_start_tasks]
    exact lookupEntry_setEntry_some _ _ _ _ hr
  have h2 : lookupEntry
      (crawl_task_run st tid (Except.ok summary) fin).crawl_tasks tid =
      some { r with status := TaskStatus.completed
                    finish_time := some fin
                    pages_crawled := extractPages summary } := by
    show lookupEntry
      (runner_finish (runner_start st tid) tid (Except.ok summary) fin).crawl_tasks
      tid = _
    rw [runner_finish_tasks]
    exact lookupEntry_setEntry_some _ _ _
      { r with status := TaskStatus.in_progress } h1
  refine ⟨_, h2, rfl, rfl, ?_, ?_, by decide⟩
  · intro n hn
    exact searchCount_some_drop summary.data n hn
  · intro hnone
    show extractPages summary = none
    exact extractPages_eq_none summary hnone

/-- Witness for C3 at the spec's example summary string. -/
theorem runner_records_page_count_witness :
    ∃ r', lookupEntry
        (crawl_task_run stDemo1 "t1"
          (Except.ok
            "Successfully crawled 42 pages and saved to ChromaDB collection 'x'")
          3).crawl_tasks "t1" = some r' ∧
      r'.status = TaskStatus.completed ∧
      r'.pages_crawled = some 42 := by
  obtain ⟨r', h1, h2, h3, _, _, h6⟩ :=
    runner_records_page_count stDemo1 "t1"
      "Successfully crawled 42 pages and saved to ChromaDB collection 'x'"
      3 demoRec1 (by decide)
  refine ⟨r', h1, h2, ?_⟩
  rw [h3, h6]

/-- Claim C4: querying a collection absent from the store surfaces as an
`HTTPException` with status 400 (the collection-not-found error shape),
while querying an existing collection that yields zero hits returns a
non-error success payload whose `num_results` is 0. -/
theorem query_not_found_and_empty (store : Store) (name q : String)
    (n : Nat) :
    (lookupEntry store name = none →
      ∃ d, query_collection store
          { collection_name := name, query := q, n_results := n } =
        HttpResult.error 400 d) ∧
    (∀ f, lookupEntry store name = some f → f q n = [] →
      query_collection store
          { collection_name := name, query := q, n_results := n } =
        HttpResult.ok
          { collection := some name
            query := some q
            num_results := some 0
            message := some "No results found for this query in the collection." } ∧
      (query_chromadb store name q n).num_results = some 0 ∧
      (query_chromadb store name q n).error = none) := by
  constructor
  · intro hnone
    refine ⟨"Failed to query collection '" ++ name
      ++ "'. Make sure the collection exists and contains documents.", ?_⟩
    unfold query_collection
    rw [query_chromadb_no_collection store name q n hnone]
    rfl
  · intro f hf hq
    have he := query_chromadb_zero_hits store name q n f hf hq
    refine ⟨?_, ?_, ?_⟩
    · unfold query_collection
      rw [he]
    · rw [he]
    · rw [he]

/-- Witness for C4: a missing collection yields the 400 error, and the
one-collection store with no hits yields the zero-result success. -/
theorem query_not_found_and_empty_witness :
    (∃ d, query_collection demoStoreEmptyHits
        { collection_name := "absent", query := "q", n_results := 5 } =
      HttpResult.error 400 d) ∧
    query_collection demoStoreEmptyHits
        { collection_name := "c", query := "q", n_results := 5 } =
      HttpResult.ok
        { collection := some "c"
          query := some "q"
          num_results := some 0
          message := some "No results found for this query in the collection." } := by
  refine ⟨(query_not_found_and_empty demoStoreEmptyHits "absent" "q" 5).1 rfl,
    ?_⟩
  exact ((query_not_found_and_empty demoStoreEmptyHits "c" "q" 5).2
    (fun _ _ => []) rfl rfl).1

/-- Claim C5 (actual behaviour at the failing input): when the store's
`list_collections` call raises, `get_collections` does NOT answer 500 — it
returns a success response whose body carries the error and the message
`Failed to list collections.`, because `list_collections` converts the
exception into data that the handler returns as-is.  This contradicts the
spec's `500 on store failure` row; the handler's own dead 500 branch shows
the intended behaviour. -/
theorem get_collections_store_failure :
    get_collections (ListOutcome.raise "disk error") =
      HttpResult.ok
        { collections := none
          error := some "disk error"
          message := some "Failed to list collections." } := rfl

/-- Claim C6: a submission whose url fails validation (such as
`"not-a-url"`) is rejected with a client error and causes no state change:
the registry keeps exactly its previous records and no background job is
scheduled. -/
theorem invalid_url_rejected (st : AppState) (req : CrawlRequest)
    (task_id : String) (now : Nat) (h : validHttpUrl req.url = false) :
    (start_crawl st req task_id now).1 = st ∧
    ∃ d, (start_crawl st req task_id now).2 = HttpResult.error 422 d := by
  unfold start_crawl
  rw [if_neg (by rw [h]; exact Bool.false_ne_true)]
  exact ⟨rfl, "value is not a valid URL", rfl⟩

/-- Witness for C6 at the spec's example `"not-a-url"` against a nonempty
registry. -/
theorem invalid_url_rejected_witness :
    (start_crawl stDemo1 { url := "not-a-url" } "t2" 5).1 = stDemo1 ∧
    ∃ d, (start_crawl stDemo1 { url := "not-a-url" } "t2" 5).2 =
      HttpResult.error 422 d :=
  invalid_url_rejected stDemo1 { url := "not-a-url" } "t2" 5 (by decide)

/-- Claim C7: when the crawl collaborator raises during the background
run, the runner consumes the exception (the run is a total function on the
state, never propagating) and records status `failed`, the finish
timestamp and the string rendering of the exception on that task's
record. -/
theorem runner_failure_recorded (st : AppState) (tid e : String)
    (fin : Nat) (r : TaskRecord)
    (hr : lookupEntry st.crawl_tasks tid = some r) :
    ∃ r', lookupEntry
        (crawl_task_run st tid (Except.error e) fin).crawl_tasks tid =
        some r' ∧
      r'.status = TaskStatus.failed ∧ r'.finish_time = some fin ∧
      r'.error = some e := by
  have h1 : lookupEntry (runner_start st tid).crawl_tasks tid =
      some { r with status := TaskStatus.in_progress } := by
    rw [runner_start_tasks]
    exact lookupEntry_setEntry_some _ _ _ _ hr
  have h2 : lookupEntry
      (crawl_task_run st tid (Except.error e) fin).crawl_tasks tid =
      some { r with status := TaskStatus.failed
                    finish_time := some fin
                    error := some e } := by
    show lookupEntry
      (runner_finish (runner_start st tid) tid (Except.error e) fin).crawl_tasks
      tid = _
    rw [runner_finish_tasks]
    exact lookupEntry_setEntry_some _ _ _
      { r with status := TaskStatus.in_progress } h1
  exact ⟨_, h2, rfl, rfl, rfl⟩

/-- Witness for C7 at a concrete failing run. -/
theorem runner_failure_recorded_witness :
    ∃ r', lookupEntry
        (crawl_task_run stDemo1 "t1" (Except.error "boom") 7).crawl_tasks
        "t1" = some r' ∧
      r'.status = TaskStatus.failed ∧ r'.finish_time = some 7 ∧
      r'.error = some "boom" :=
  runner_failure_recorded stDemo1 "t1" "boom" 7 demoRec1 (by decide)

/-- Claim C10: the runner's writes touch only the status, finish time and,
depending on the outcome, page count or error of its own task's record:
the url, collection name and start time keep their creation values, on
completion the error field is untouched, on failure the page count is
untouched, and records under every other task id are left exactly as they
were. -/
theorem runner_preserves_creation_fields (st : AppState) (tid : String)
    (outcome : Except String String) (fin : Nat) :
    (∀ r, lookupEntry st.crawl_tasks tid = some r →
      ∃ r', lookupEntry
          (crawl_task_run st tid outcome fin).crawl_tasks tid = some r' ∧
        r'.url = r.url ∧ r'.collection_name = r.collection_name ∧
        r'.start_time = r.start_time ∧
        (∀ summary, outcome = Except.ok summary → r'.error = r.error) ∧
        (∀ e, outcome = Except.error e →
          r'.pages_crawled = r.pages_crawled)) ∧
    (∀ other, other ≠ tid →
      lookupEntry (crawl_task_run st tid outcome fin).crawl_tasks other =
        lookupEntry st.crawl_tasks other) := by
  constructor
  · intro r hr
    have h1 : lookupEntry (runner_start st tid).crawl_tasks tid =
        some { r with status := TaskStatus.in_progress } := by
      rw [runner_start_tasks]
      exact lookupEntry_setEntry_some _ _ _ _ hr
    cases outcome with
    | ok summary =>
      have h2 : lookupEntry
          (crawl_task_run st tid (Except.ok summary) fin).crawl_tasks tid =
          some { r with status := TaskStatus.completed
                        finish_time := some fin
                        pages_crawled := extractPages summary } := by
        show lookupEntry
          (runner_finish (runner_start st tid) tid (Except.ok summary)
            fin).crawl_tasks tid = _
        rw [runner_finish_tasks]
        exact lookupEntry_setEntry_some _ _ _
          { r with status := TaskStatus.in_progress } h1
      exact ⟨_, h2, rfl, rfl, rfl, fun _ _ => rfl,
        fun e he => Except.noConfusion he⟩
    | error e =>
      have h2 : lookupEntry
          (crawl_task_run st tid (Except.error e) fin).crawl_tasks tid =
          some { r with status := TaskStatus.failed
                        finish_time := some fin
                        error := some e } := by
        show lookupEntry
          (runner_finish (runner_start st tid) tid (Except.error e)
            fin).crawl_tasks tid = _
        rw [runner_finish_tasks]
        exact lookupEntry_setEntry_some _ _ _
          { r with status := TaskStatus.in_progress } h1
      exact ⟨_, h2, rfl, rfl, rfl, fun s hs => Except.noConfusion hs,
        fun _ _ => rfl⟩
  · intro other hne
    show lookupEntry
      (runner_finish (runner_start st tid) tid outcome fin).crawl_tasks
      other = _
    rw [runner_finish_tasks, lookupEntry_setEntry_other _ _ _ _ hne,
      runner_start_tasks, lookupEntry_setEntry_other _ _ _ _ hne]

/-- Witness for C10 at a concrete completed run, also checking another
task id is untouched. -/
theorem runner_preserves_creation_fields_witness :
    ∃ r', lookupEntry
        (crawl_task_run stDemo1 "t1" (Except.ok "s") 4).crawl_tasks "t1" =
        some r' ∧
      r'.url = demoRec1.url ∧
      r'.collection_name = demoRec1.collection_name ∧
      r'.start_time = demoRec1.start_time ∧
      lookupEntry (crawl_task_run stDemo1 "t1" (Except.ok "s") 4).crawl_tasks
          "t2" =
        lookupEntry stDemo1.crawl_tasks "t2" := by
  obtain ⟨hA, hB⟩ :=
    runner_preserves_creation_fields stDemo1 "t1" (Except.ok "s") 4
  obtain ⟨r', h1, h2, h3, h4, _, _⟩ := hA demoRec1 (by decide)
  exact ⟨r', h1, h2, h3, h4, hB "t2" (by decide)⟩

/-- Claim C8: every result entry the query facade returns carries
similarity score `1 - distance` for the distance the store reported at the
same position, for arbitrary rational distances (out-of-range values go
through the same formula). -/
theorem score_is_one_minus_distance (store : Store) (name q : String)
    (n i : Nat) (f : String → Nat → List Hit) (h : Hit)
    (hf : lookupEntry store name = some f)
    (hi : (f q n).get? i = some h) :
    ∃ l e, (query_chromadb store name q n).results = some l ∧
      l.get? i = some e ∧ e.relevance_score = 1 - h.dist := by
  obtain ⟨l, hl, he⟩ := query_results_entry store name q n i f h hf hi
  exact ⟨l, mkResultEntry i h, hl, he, rfl⟩

/-- Witness for C8: a reported distance of 0.2 yields score 0.8. -/
theorem score_is_one_minus_distance_witness :
    ∃ l e, (query_chromadb demoStoreOneHit "c" "q" 5).results = some l ∧
      l.get? 0 = some e ∧ e.relevance_score = 0.8 := by
  obtain ⟨l, e, h1, h2, h3⟩ :=
    score_is_one_minus_distance demoStoreOneHit "c" "q" 5 0
      (fun _ _ => [{ doc := "some document", meta := "m", dist := 0.2 }])
      { doc := "some document", meta := "m", dist := 0.2 } rfl rfl
  refine ⟨l, e, h1, h2, ?_⟩
  rw [h3]
  norm_num

/-- Claim C9: every returned entry keeps the complete document body in
`full_content`; `content_preview` is the first 300 characters marked with
`...` when the body exceeds 300 characters, and the body unchanged
otherwise. -/
theorem preview_truncation (store : Store) (name q : String) (n i : Nat)
    (f : String → Nat → List Hit) (h : Hit)
    (hf : lookupEntry store name = some f)
    (hi : (f q n).get? i = some h) :
    ∃ l e, (query_chromadb store name q n).results = some l ∧
      l.get? i = some e ∧
      e.full_content = h.doc ∧
      (300 < h.doc.length → e.content_preview = h.doc.take 300 ++ "...") ∧
      (h.doc.length ≤ 300 → e.content_preview = h.doc) := by
  obtain ⟨l, hl, he⟩ := query_results_entry store name q n i f h hf hi
  refine ⟨l, mkResultEntry i h, hl, he, rfl, ?_, ?_⟩
  · intro hlen
    show (if 300 < h.doc.length then h.doc.take 300 ++ "..." else h.doc) = _
    rw [if_pos hlen]
  · intro hlen
    show (if 300 < h.doc.length then h.doc.take 300 ++ "..." else h.doc) = _
    rw [if_neg (Nat.not_lt.mpr hlen)]

set_option maxRecDepth 4000 in
/-- Witness for C9 at a 301-character document. -/
theorem preview_truncation_witness :
    ∃ l e, (query_chromadb demoStoreLongDoc "c" "q" 5).results = some l ∧
      l.get? 0 = some e ∧
      e.full_content = demoLongDoc ∧
      e.content_preview = demoLongDoc.take 300 ++ "..." := by
  obtain ⟨l, e, h1, h2, h3, h4, _⟩ :=
    preview_truncation demoStoreLongDoc "c" "q" 5 0
      (fun _ _ => [{ doc := demoLongDoc, meta := "m", dist := 0 }])
      { doc := demoLongDoc, meta := "m", dist := 0 } rfl rfl
  exact ⟨l, e, h1, h2, h3, h4 (by decide)⟩

end CrawlChat
